import Mathlib

/-!
Verification of the live-transcription core of the `codexaudio` repository.

The definitions below are shallow embeddings of the Python sources:
* `src/live_transcribe_testing/live_transcribe_3.py` — conversation log
  (`flush`, `RecognitionWorker._result`, `_downmix_to_mono`, `find_device`),
* `src/live_transcribe_testing/dual_live_transcribe.py` — calibration,
  channel routing, VU meter and silence watchdog inside `tap`, aggregate
  device lookup,
* `src/live_transcribe_testing/live_transcribe_2.py` — result handler
  `mk_handler`.

Machine floats are modelled by `ℚ`, wall-clock timestamps by `ℚ`.
-/

/-! ### Conversation log (live_transcribe_3.py)

`conversation` is a list of `(timestamp, label, text)` tuples.  `_result`
appends a tuple, re-sorts the list by timestamp with Python's stable
`list.sort(key=lambda t: t[0])`, and calls `flush`, which rewrites the whole
transcript file.  Python's sort is stable; we embed it as `List.mergeSort`,
which is stable as well. -/

structure TranscriptEntry where
  ts : ℚ
  label : String
  text : String
deriving DecidableEq

/-- The Boolean comparison used by `conversation.sort(key=lambda t: t[0])`. -/
def tsLE (a b : TranscriptEntry) : Bool := decide (a.ts ≤ b.ts)

/-- `conversation.sort(key=lambda t: t[0])` — a stable ascending sort
by timestamp. -/
def conversationSort (l : List TranscriptEntry) : List TranscriptEntry :=
  l.mergeSort tsLE

/-- Two-digit decimal field of `strftime`. -/
def twoDigits (n : Nat) : String :=
  if n < 10 then "0" ++ toString n else toString n

/-- `datetime.fromtimestamp(ts).strftime(\x27%H:%M:%S\x27)`, with the epoch
offset taken as zero. -/
def formatTimestamp (ts : ℚ) : String :=
  let secs : Nat := ts.floor.toNat
  twoDigits (secs / 3600 % 24) ++ ":" ++ twoDigits (secs / 60 % 60) ++ ":" ++
    twoDigits (secs % 60)

/-- One line written by `flush`:
`f"[\x7b…strftime…\x7d] \x7bwho\x7d: \x7btxt\x7d\n"`. -/
def renderLine (e : TranscriptEntry) : String :=
  "[" ++ formatTimestamp e.ts ++ "] " ++ e.label ++ ": " ++ e.text ++ "\n"

/-- The whole file content produced by `flush` from a conversation list. -/
def renderConversation (conv : List TranscriptEntry) : String :=
  String.join (conv.map renderLine)

/-- The shared state of the log: the in-memory `conversation` list and the
persisted content of `transcription.txt`. -/
structure LogState where
  conversation : List TranscriptEntry
  file : String
deriving DecidableEq

/-- `flush()` — truncate-and-rewrite the transcript file from the current
conversation list. -/
def flushLog (s : LogState) : LogState :=
  { s with file := renderConversation s.conversation }

/-- `conversation.append((ts, label, txt)); conversation.sort(key=…)`. -/
def appendEntry (conv : List TranscriptEntry) (e : TranscriptEntry) :
    List TranscriptEntry :=
  conversationSort (conv ++ [e])

/-- The body of `RecognitionWorker._result` on a successful result:
append, stable-sort by timestamp, flush. -/
def resultAppend (s : LogState) (e : TranscriptEntry) : LogState :=
  flushLog { conversation := appendEntry s.conversation e, file := s.file }

/-- A whole sequence of result callbacks, in arrival order. -/
def runAppends (s : LogState) (es : List TranscriptEntry) : LogState :=
  es.foldl resultAppend s

/-- The log state at startup: empty conversation, empty file. -/
def initialLogState : LogState := { conversation := [], file := "" }

/-- Boolean test for a fixed timestamp, used to state sort stability. -/
def sameTs (t : ℚ) (e : TranscriptEntry) : Bool := decide (e.ts = t)

/-- `out` is the stable ascending-by-timestamp sort of the arrival
sequence `h`: sorted, a permutation of `h`, and entries of each fixed
timestamp keep their relative order of arrival. -/
def StableSorted (h out : List TranscriptEntry) : Prop :=
  out.Pairwise (fun a b => a.ts ≤ b.ts) ∧ out.Perm h ∧
    ∀ t, out.filter (sameTs t) = h.filter (sameTs t)

/-- Invariant tying the persisted file to the conversation list. -/
def GoodLog (h : List TranscriptEntry) (s : LogState) : Prop :=
  StableSorted h s.conversation ∧ s.file = renderConversation s.conversation

theorem tsLE_trans : ∀ a b c, tsLE a b → tsLE b c → tsLE a c := by
  intro a b c hab hbc
  simp only [tsLE, decide_eq_true_eq] at *
  exact le_trans hab hbc

theorem tsLE_total : ∀ a b, tsLE a b || tsLE b a := by
  intro a b
  simp only [tsLE, Bool.or_eq_true, decide_eq_true_eq]
  exact le_total a.ts b.ts

/-- Stability of the embedded sort: filtering to one fixed timestamp
commutes with sorting. -/
theorem conversationSort_filter_sameTs (l : List TranscriptEntry) (t : ℚ) :
    (conversationSort l).filter (sameTs t) = l.filter (sameTs t) := by
  have hall : ∀ e ∈ l.filter (sameTs t), sameTs t e = true :=
    fun e he => (List.mem_filter.mp he).2
  have hpair : (l.filter (sameTs t)).Pairwise (fun a b => tsLE a b = true) := by
    apply List.pairwise_of_forall_mem_list
    intro a ha b hb
    have ha' : a.ts = t := of_decide_eq_true (hall a ha)
    have hb' : b.ts = t := of_decide_eq_true (hall b hb)
    simp [tsLE, ha', hb']
  have hsub : List.Sublist (l.filter (sameTs t)) (l.mergeSort tsLE) :=
    List.sublist_mergeSort tsLE_trans tsLE_total hpair (List.filter_sublist l)
  have hsub2 : List.Sublist (l.filter (sameTs t))
      ((l.mergeSort tsLE).filter (sameTs t)) := by
    have h := hsub.filter (sameTs t)
    rwa [List.filter_eq_self.mpr hall] at h
  have hperm : List.Perm ((l.mergeSort tsLE).filter (sameTs t))
      (l.filter (sameTs t)) :=
    (List.mergeSort_perm l tsLE).filter (sameTs t)
  exact (hsub2.eq_of_length hperm.length_eq.symm).symm

theorem appendEntry_stable {h conv : List TranscriptEntry} (e : TranscriptEntry)
    (hg : StableSorted h conv) :
    StableSorted (h ++ [e]) (appendEntry conv e) := by
  obtain ⟨hs, hp, hf⟩ := hg
  refine ⟨?_, ?_, ?_⟩
  · have h := List.sorted_mergeSort tsLE_trans tsLE_total (conv ++ [e])
    exact h.imp fun hab => of_decide_eq_true hab
  · exact (List.mergeSort_perm _ _).trans (hp.append_right [e])
  · intro t
    rw [appendEntry, conversationSort_filter_sameTs, List.filter_append,
      List.filter_append, hf t]

theorem resultAppend_good {h : List TranscriptEntry} {s : LogState}
    (e : TranscriptEntry) (hg : GoodLog h s) :
    GoodLog (h ++ [e]) (resultAppend s e) :=
  ⟨appendEntry_stable e hg.1, rfl⟩

theorem runAppends_good :
    ∀ (es : List TranscriptEntry) (s : LogState) (h : List TranscriptEntry),
      GoodLog h s → GoodLog (h ++ es) (runAppends s es) := by
  intro es
  induction es with
  | nil => intro s h hg; simpa [runAppends] using hg
  | cons e es ih =>
    intro s h hg
    have h2 := ih (resultAppend s e) (h ++ [e]) (resultAppend_good e hg)
    simpa [runAppends, List.append_assoc] using h2

/-- C1: for every sequence of `append(timestamp, label, text)` calls with
arbitrary timestamps (including out-of-order arrival), after the last append
the conversation list is sorted ascending by timestamp, is a permutation of
exactly the appended entries, entries of equal timestamp keep their arrival
order, and the persisted file is the rendering of that sorted list. -/
theorem append_sequence_sorted_stable_persisted (es : List TranscriptEntry) :
    (runAppends initialLogState es).conversation.Pairwise
        (fun a b => a.ts ≤ b.ts)
    ∧ (runAppends initialLogState es).conversation.Perm es
    ∧ (∀ t, (runAppends initialLogState es).conversation.filter (sameTs t)
          = es.filter (sameTs t))
    ∧ (runAppends initialLogState es).file
        = renderConversation (runAppends initialLogState es).conversation := by
  have h0 : GoodLog [] initialLogState := by
    refine ⟨⟨List.Pairwise.nil, List.Perm.refl _, fun t => rfl⟩, rfl⟩
  have h := runAppends_good es initialLogState [] h0
  rw [List.nil_append] at h
  exact ⟨h.1.1, h.1.2.1, h.1.2.2, h.2⟩

/-- C8: `flush` run twice with no intervening `append` is a no-op the second
time: the whole state, and in particular the persisted bytes, are identical. -/
theorem flush_twice_idempotent (s : LogState) :
    flushLog (flushLog s) = flushLog s
    ∧ (flushLog (flushLog s)).file = (flushLog s).file :=
  ⟨rfl, rfl⟩

/-! ### Channel calibration (dual_live_transcribe.py, `tap`)

During the first `CALIBRATION_SECONDS` of audio, `tap` accumulates one RMS
value per channel and per buffer (`samples_acc[ch] += rms(fc[ch], n_frames)`;
`samples_cnt += 1`), then finalizes with
`avg = [e / samples_cnt for e in samples_acc]`,
`mic_ch = max(range(3), key=avg.__getitem__)` and
`bh_ch = tuple(c for c in range(3) if c != mic_ch)`.
The channel count is a parameter `nch` below; the script instantiates it
with 3. -/

/-- The loop of Python's `max(..., key=f)`: the running best is replaced only
when a strictly greater key appears, so the first maximum wins. -/
def pyMaxFold (key : Nat → ℚ) : Nat → List Nat → Nat
  | best, [] => best
  | best, i :: rest => pyMaxFold key (if key best < key i then i else best) rest

/-- Python's `max(lst, key=f)` on a list of indices (0 is a dead default:
Python raises on an empty list, and the script always passes `range(3)`). -/
def pyMaxList (key : Nat → ℚ) : List Nat → Nat
  | [] => 0
  | b :: rest => pyMaxFold key b rest

/-- `max(range(n), key=f)`. -/
def pyMax (key : Nat → ℚ) (n : Nat) : Nat := pyMaxList key (List.range n)

/-- `avg = [e / samples_cnt for e in samples_acc]`. -/
def calibAvg (acc : List ℚ) (cnt : Nat) : List ℚ :=
  acc.map (fun e => e / (cnt : ℚ))

/-- `mic_ch = max(range(nch), key=avg.__getitem__)`. -/
def calibPrimary (acc : List ℚ) (cnt : Nat) (nch : Nat) : Nat :=
  pyMax (fun i => (calibAvg acc cnt).getD i 0) nch

/-- `bh_ch = tuple(c for c in range(nch) if c != mic_ch)`. -/
def calibSecondary (nch : Nat) (mic : Nat) : List Nat :=
  (List.range nch).filter (fun c => decide (c ≠ mic))

theorem pyMaxFold_range'_spec (key : Nat → ℚ) :
    ∀ (len s best : Nat), best < s →
      (pyMaxFold key best (List.range' s len) = best ∨
        (s ≤ pyMaxFold key best (List.range' s len) ∧
          pyMaxFold key best (List.range' s len) < s + len ∧
          key best < key (pyMaxFold key best (List.range' s len)))) ∧
      (∀ i, s ≤ i → i < s + len →
        key i ≤ key (pyMaxFold key best (List.range' s len))) ∧
      (∀ i, s ≤ i → i < pyMaxFold key best (List.range' s len) →
        key i < key (pyMaxFold key best (List.range' s len))) ∧
      key best ≤ key (pyMaxFold key best (List.range' s len)) := by
  intro len
  induction len with
  | zero =>
    intro s best hbs
    refine ⟨Or.inl rfl, ?_, ?_, le_refl _⟩
    · intro i h1 h2; omega
    · intro i h1 h2; simp only [List.range'] at h2; simp only [pyMaxFold] at h2; omega
  | succ len ih =>
    intro s best hbs
    rw [List.range'_succ]
    by_cases hlt : key best < key s
    · simp only [pyMaxFold, if_pos hlt]
      obtain ⟨ih1, ih2, ih3, ih4⟩ := ih (s + 1) s (by omega)
      refine ⟨?_, ?_, ?_, ?_⟩
      · right
        rcases ih1 with h | ⟨h1, h2, h3⟩
        · exact ⟨by omega, by omega, by rw [h]; exact hlt⟩
        · exact ⟨by omega, by omega, lt_of_lt_of_le hlt ih4⟩
      · intro i h1 h2
        rcases Nat.eq_or_lt_of_le h1 with rfl | h1'
        · exact ih4
        · exact ih2 i h1' (by omega)
      · intro i h1 h2
        rcases Nat.eq_or_lt_of_le h1 with rfl | h1'
        · rcases ih1 with h | ⟨_, _, h3⟩
          · omega
          · exact h3
        · exact ih3 i h1' h2
      · exact le_of_lt (lt_of_lt_of_le hlt ih4)
    · simp only [pyMaxFold, if_neg hlt]
      push_neg at hlt
      obtain ⟨ih1, ih2, ih3, ih4⟩ := ih (s + 1) best (by omega)
      refine ⟨?_, ?_, ?_, ?_⟩
      · rcases ih1 with h | ⟨h1, h2, h3⟩
        · exact Or.inl h
        · exact Or.inr ⟨by omega, by omega, h3⟩
      · intro i h1 h2
        rcases Nat.eq_or_lt_of_le h1 with rfl | h1'
        · exact le_trans hlt ih4
        · exact ih2 i h1' (by omega)
      · intro i h1 h2
        rcases Nat.eq_or_lt_of_le h1 with rfl | h1'
        · rcases ih1 with h | ⟨_, _, h3⟩
          · omega
          · exact lt_of_le_of_lt hlt h3
        · exact ih3 i h1' h2
      · exact ih4

theorem pyMax_spec (key : Nat → ℚ) (n : Nat) (hn : 1 ≤ n) :
    pyMax key n < n ∧ (∀ i, i < n → key i ≤ key (pyMax key n)) ∧
      ∀ i, i < pyMax key n → key i < key (pyMax key n) := by
  obtain ⟨m, rfl⟩ : ∃ m, n = m + 1 := ⟨n - 1, by omega⟩
  have hr : List.range (m + 1) = 0 :: List.range' 1 m := by
    rw [List.range_eq_range', List.range'_succ]
  rw [pyMax, hr]
  simp only [pyMaxList]
  obtain ⟨h1, h2, h3, h4⟩ := pyMaxFold_range'_spec key m 1 0 (by omega)
  refine ⟨?_, ?_, ?_⟩
  · rcases h1 with h | ⟨_, hb, _⟩
    · omega
    · omega
  · intro i hi
    rcases Nat.eq_zero_or_pos i with rfl | hpos
    · exact h4
    · exact h2 i hpos (by omega)
  · intro i hi
    rcases Nat.eq_zero_or_pos i with rfl | hpos
    · rcases h1 with h | ⟨_, _, h3'⟩
      · omega
      · exact h3'
    · exact h3 i hpos hi

/-- C2: for a fixed sequence of accumulated per-channel RMS values, the
chosen primary channel `mic_ch` is the index with the maximum accumulated
average, and among tied maxima the lowest index is chosen. -/
theorem calibration_primary_least_argmax (acc : List ℚ) (cnt nch : Nat)
    (hn : 1 ≤ nch) :
    calibPrimary acc cnt nch < nch
    ∧ (∀ i, i < nch → (calibAvg acc cnt).getD i 0
          ≤ (calibAvg acc cnt).getD (calibPrimary acc cnt nch) 0)
    ∧ ∀ i, i < nch → (calibAvg acc cnt).getD i 0
          = (calibAvg acc cnt).getD (calibPrimary acc cnt nch) 0 →
        calibPrimary acc cnt nch ≤ i := by
  obtain ⟨h1, h2, h3⟩ :=
    pyMax_spec (fun i => (calibAvg acc cnt).getD i 0) nch hn
  refine ⟨h1, h2, ?_⟩
  intro i hi heq
  by_contra hgt
  push_neg at hgt
  exact absurd heq (ne_of_lt (h3 i hgt))

/-- Witness for C2 at the script's channel count 3, with accumulated RMS
sums `[0, 1, 1]` over 2 blocks (a tie between channels 1 and 2). -/
theorem calibration_primary_least_argmax_witness :
    1 ≤ 3
    ∧ (calibPrimary [0, 1, 1] 2 3 < 3
      ∧ (∀ i, i < 3 → (calibAvg [0, 1, 1] 2).getD i 0
            ≤ (calibAvg [0, 1, 1] 2).getD (calibPrimary [0, 1, 1] 2 3) 0)
      ∧ ∀ i, i < 3 → (calibAvg [0, 1, 1] 2).getD i 0
            = (calibAvg [0, 1, 1] 2).getD (calibPrimary [0, 1, 1] 2 3) 0 →
          calibPrimary [0, 1, 1] 2 3 ≤ i) :=
  ⟨by decide, calibration_primary_least_argmax [0, 1, 1] 2 3 (by decide)⟩

/-- C3: after calibration finalizes, for any channel count ≥ 2, the single
primary channel together with the secondary tuple is a partition of all
channel indices: union is everything, intersection empty, the primary is one
channel, the secondary tuple non-empty. -/
theorem calibration_partition (acc : List ℚ) (cnt nch : Nat) (hn : 2 ≤ nch) :
    (∀ c, (c = calibPrimary acc cnt nch
        ∨ c ∈ calibSecondary nch (calibPrimary acc cnt nch)) ↔ c < nch)
    ∧ calibPrimary acc cnt nch ∉ calibSecondary nch (calibPrimary acc cnt nch)
    ∧ calibSecondary nch (calibPrimary acc cnt nch) ≠ []
    ∧ [calibPrimary acc cnt nch].length = 1 := by
  obtain ⟨hmic, -, -⟩ :=
    pyMax_spec (fun i => (calibAvg acc cnt).getD i 0) nch (by omega)
  have hmem : ∀ c, c ∈ calibSecondary nch (calibPrimary acc cnt nch)
      ↔ c < nch ∧ c ≠ calibPrimary acc cnt nch := by
    intro c
    simp [calibSecondary, List.mem_filter, List.mem_range]
  refine ⟨?_, ?_, ?_, rfl⟩
  · intro c
    rw [hmem c]
    constructor
    · rintro (rfl | ⟨h, -⟩)
      · exact hmic
      · exact h
    · intro h
      by_cases hc : c = calibPrimary acc cnt nch
      · exact Or.inl hc
      · exact Or.inr ⟨h, hc⟩
  · intro h
    exact absurd ((hmem _).mp h).2 (by simp)
  · have : (if calibPrimary acc cnt nch = 0 then 1 else 0)
        ∈ calibSecondary nch (calibPrimary acc cnt nch) := by
      rw [hmem]
      split <;> omega
    exact List.ne_nil_of_mem this

/-- Witness for C3 at channel count 3 with accumulated sums `[0, 1, 1]`. -/
theorem calibration_partition_witness :
    2 ≤ 3
    ∧ ((∀ c, (c = calibPrimary [0, 1, 1] 2 3
          ∨ c ∈ calibSecondary 3 (calibPrimary [0, 1, 1] 2 3)) ↔ c < 3)
      ∧ calibPrimary [0, 1, 1] 2 3 ∉ calibSecondary 3 (calibPrimary [0, 1, 1] 2 3)
      ∧ calibSecondary 3 (calibPrimary [0, 1, 1] 2 3) ≠ []
      ∧ [calibPrimary [0, 1, 1] 2 3].length = 1) :=
  ⟨by decide, calibration_partition [0, 1, 1] 2 3 (by decide)⟩

/-! ### The calibration branch of `tap` (dual_live_transcribe.py, C9)

`tap` returns immediately when `buffer.frameLength()` is 0.  Otherwise, while
not yet calibrated, it adds this buffer's per-channel RMS to `samples_acc`,
increments `samples_cnt`, and only then tests the elapsed time; on
finalization it divides by the just-incremented count.  The per-channel RMS
values of the incoming buffer are supplied as `rmsVals` and the wall clock as
`now`; the calibration window length is the configuration input
`calWindow` (1.5 s in the script). -/

structure CalibState where
  acc : List ℚ
  cnt : Nat
  calibrated : Bool
deriving DecidableEq

/-- The data computed at finalization: the divisor `samples_cnt` actually
used, the per-channel averages, and the resulting channel mapping. -/
structure CalibResult where
  cntUsed : Nat
  avg : List ℚ
  micCh : Nat
  bhCh : List Nat
deriving DecidableEq

/-- One invocation of `tap` while in the calibration phase. -/
def calibTapStep (calWindow calibStart : ℚ) (nch : Nat) (s : CalibState)
    (nFrames : Nat) (rmsVals : Nat → ℚ) (now : ℚ) :
    CalibState × Option CalibResult :=
  if nFrames = 0 then (s, none)
  else if s.calibrated then (s, none)
  else
    let acc2 := (List.range nch).map fun ch => s.acc.getD ch 0 + rmsVals ch
    let cnt2 := s.cnt + 1
    if calWindow ≤ now - calibStart then
      ({ acc := acc2, cnt := cnt2, calibrated := true },
        some { cntUsed := cnt2, avg := calibAvg acc2 cnt2,
               micCh := calibPrimary acc2 cnt2 nch,
               bhCh := calibSecondary nch (calibPrimary acc2 cnt2 nch) })
    else ({ acc := acc2, cnt := cnt2, calibrated := false }, none)

/-- C9: whenever the calibration branch finalizes, the divisor of the
per-channel average is the block count incremented for the current buffer,
hence at least 1; the averages are taken over the accumulator that already
includes the current buffer's RMS; and an empty buffer never finalizes. -/
theorem calibration_divisor_positive (calWindow calibStart : ℚ) (nch : Nat)
    (s : CalibState) (nFrames : Nat) (rmsVals : Nat → ℚ) (now : ℚ)
    (r : CalibResult)
    (hr : (calibTapStep calWindow calibStart nch s nFrames rmsVals now).2
        = some r) :
    r.cntUsed = s.cnt + 1 ∧ 0 < r.cntUsed
    ∧ r.avg = calibAvg
        ((List.range nch).map fun ch => s.acc.getD ch 0 + rmsVals ch)
        (s.cnt + 1)
    ∧ nFrames ≠ 0 := by
  unfold calibTapStep at hr
  split at hr
  · simp at hr
  · split at hr
    · simp at hr
    · split at hr
      · simp only [Option.some.injEq] at hr
        subst hr
        exact ⟨rfl, Nat.succ_pos s.cnt, rfl, by assumption⟩
      · simp at hr

/-- The accumulator reached when a buffer with RMS 1 on channel 0 and 0
elsewhere is added to the zeroed 3-channel accumulator (used by the C9
witness). -/
def witnessAcc : List ℚ :=
  (List.range 3).map fun ch =>
    (CalibState.mk [0, 0, 0] 0 false).acc.getD ch 0
      + (fun ch => if ch = 0 then (1 : ℚ) else 0) ch

/-- The finalization record produced in the C9 witness run. -/
def witnessResult : CalibResult :=
  { cntUsed := 1, avg := calibAvg witnessAcc 1,
    micCh := calibPrimary witnessAcc 1 3,
    bhCh := calibSecondary 3 (calibPrimary witnessAcc 1 3) }

/-- Witness for C9: a 1024-frame buffer with RMS 1 on channel 0, arriving
2 s after calibration start with a 1 s window, finalizes from the initial
state with divisor 1. -/
theorem calibration_divisor_positive_witness :
    witnessResult.cntUsed = (CalibState.mk [0, 0, 0] 0 false).cnt + 1
    ∧ 0 < witnessResult.cntUsed
    ∧ witnessResult.avg = calibAvg
        ((List.range 3).map fun ch =>
          (CalibState.mk [0, 0, 0] 0 false).acc.getD ch 0
            + (fun ch => if ch = 0 then (1 : ℚ) else 0) ch)
        ((CalibState.mk [0, 0, 0] 0 false).cnt + 1)
    ∧ (1024 : Nat) ≠ 0 :=
  calibration_divisor_positive 1 0 3 (CalibState.mk [0, 0, 0] 0 false) 1024
    (fun ch => if ch = 0 then (1 : ℚ) else 0) 2
    witnessResult
    (by simp [calibTapStep, witnessResult, witnessAcc])

/-! ### Frame router / downmixer

`RecognitionWorker._downmix_to_mono` (live_transcribe_3.py) works on an
interleaved float buffer: one channel is returned unchanged, otherwise each
mono sample is the per-frame mean of the channels.  The post-calibration part
of `tap` (dual_live_transcribe.py) copies the mic channel sample-for-sample
into `buf1` and writes `0.5 * (bh_l[i] + bh_r[i])` into `buf2`. -/

/-- `RecognitionWorker._downmix_to_mono`. -/
def downmixToMono (inch : Nat) (samples : List ℚ) : List ℚ :=
  if inch = 1 then samples
  else
    (List.range (samples.length / inch)).map fun i =>
      (((List.range inch).map fun ch => samples.getD (i * inch + ch) 0).sum)
        / (inch : ℚ)

/-- Person-1 path of `tap`: `buf1_data[i] = mic[i]` for `i < n_frames`. -/
def tapPerson1 (mic : List ℚ) (n : Nat) : List ℚ :=
  (List.range n).map fun i => mic.getD i 0

/-- Person-2 path of `tap`: `buf2_data[i] = 0.5 * (bh_l[i] + bh_r[i])`. -/
def tapPerson2 (bhL bhR : List ℚ) (n : Nat) : List ℚ :=
  (List.range n).map fun i => (1 / 2) * (bhL.getD i 0 + bhR.getD i 0)

theorem sum_map_range (f : Nat → ℚ) (n : Nat) :
    ((List.range n).map f).sum = ∑ i ∈ Finset.range n, f i := by
  induction n with
  | zero => simp
  | succ n ih =>
    rw [List.range_succ, List.map_append, List.sum_append,
      Finset.sum_range_succ, ih]
    simp

theorem getD_map_range (f : Nat → ℚ) (n i : Nat) (h : i < n) :
    ((List.range n).map f).getD i 0 = f i := by
  rw [List.getD_eq_getElem?_getD, List.getElem?_map, List.getElem?_range h]
  rfl

/-- C4: a one-channel subset yields a sample-for-sample copy, a larger subset
the per-sample arithmetic mean over its channels, and the mono output length
always equals the frame count — for both the worker's interleaved downmix and
the two per-speaker paths of `tap`. -/
theorem downmix_copy_mean_length (inch : Nat) (samples mic bhL bhR : List ℚ)
    (n : Nat) (hch : 2 ≤ inch) :
    downmixToMono 1 samples = samples
    ∧ (downmixToMono inch samples).length = samples.length / inch
    ∧ (∀ i, i < samples.length / inch →
        (downmixToMono inch samples).getD i 0
          = (∑ ch ∈ Finset.range inch, samples.getD (i * inch + ch) 0)
              / (inch : ℚ))
    ∧ (tapPerson1 mic n).length = n
    ∧ (∀ i, i < n → (tapPerson1 mic n).getD i 0 = mic.getD i 0)
    ∧ (tapPerson2 bhL bhR n).length = n
    ∧ ∀ i, i < n → (tapPerson2 bhL bhR n).getD i 0
          = (bhL.getD i 0 + bhR.getD i 0) / 2 := by
  have hne : inch ≠ 1 := by omega
  refine ⟨by simp [downmixToMono], ?_, ?_, ?_, ?_, ?_, ?_⟩
  · simp [downmixToMono, hne]
  · intro i hi
    rw [downmixToMono, if_neg hne, getD_map_range _ _ _ hi, sum_map_range]
  · simp [tapPerson1]
  · intro i hi
    rw [tapPerson1, getD_map_range _ _ _ hi]
  · simp [tapPerson2]
  · intro i hi
    rw [tapPerson2, getD_map_range _ _ _ hi]
    ring

/-- Witness for C4 at a stereo buffer of four interleaved samples and a
two-frame tap buffer. -/
theorem downmix_copy_mean_length_witness :
    2 ≤ 2
    ∧ (downmixToMono 1 [1, 2, 3, 4] = [1, 2, 3, 4]
      ∧ (downmixToMono 2 [1, 2, 3, 4]).length = ([1, 2, 3, 4] : List ℚ).length / 2
      ∧ (∀ i, i < ([1, 2, 3, 4] : List ℚ).length / 2 →
          (downmixToMono 2 [1, 2, 3, 4]).getD i 0
            = (∑ ch ∈ Finset.range 2,
                ([1, 2, 3, 4] : List ℚ).getD (i * 2 + ch) 0) / ((2 : ℕ) : ℚ))
      ∧ (tapPerson1 [7, 8] 2).length = 2
      ∧ (∀ i, i < 2 → (tapPerson1 [7, 8] 2).getD i 0
            = ([7, 8] : List ℚ).getD i 0)
      ∧ (tapPerson2 [1, 3] [5, 7] 2).length = 2
      ∧ ∀ i, i < 2 → (tapPerson2 [1, 3] [5, 7] 2).getD i 0
            = (([1, 3] : List ℚ).getD i 0 + ([5, 7] : List ℚ).getD i 0) / 2) :=
  ⟨by decide, downmix_copy_mean_length 2 [1, 2, 3, 4] [7, 8] [1, 3] [5, 7] 2
    (by decide)⟩

/-! ### Silence watchdog (dual_live_transcribe.py)

`last_rms_bh = deque(maxlen=SILENCE_TIMEOUT)`.  On each whole-second tick the
VU block appends the BlackHole RMS; when the deque is full and every element
is below `SILENCE_THRESH` it prints one warning and clears the deque. -/

/-- The script's silence threshold, `0.0004`. -/
def SILENCE_THRESH : ℚ := 4 / 10000

/-- The script's window capacity in seconds, `SILENCE_TIMEOUT`. -/
def SILENCE_TIMEOUT : Nat := 3

/-- `deque(maxlen=cap).append(v)`: append on the right, dropping from the
left whatever exceeds the capacity. -/
def dequePush (cap : Nat) (w : List ℚ) (v : ℚ) : List ℚ :=
  (w ++ [v]).drop ((w ++ [v]).length - cap)

structure WatchdogState where
  window : List ℚ
  alerts : Nat
deriving DecidableEq

/-- One per-second tick of the watchdog: append the sample, and when the
window is full of sub-threshold samples emit one alert and clear it. -/
def watchdogTick (cap : Nat) (thresh : ℚ) (s : WatchdogState) (v : ℚ) :
    WatchdogState :=
  let w := dequePush cap s.window v
  if w.length = cap ∧ ∀ x ∈ w, x < thresh then
    { window := [], alerts := s.alerts + 1 }
  else { window := w, alerts := s.alerts }

/-- A sequence of per-second RMS samples fed to the watchdog. -/
def watchdogRun (cap : Nat) (thresh : ℚ) (s : WatchdogState) (vs : List ℚ) :
    WatchdogState :=
  vs.foldl (watchdogTick cap thresh) s

theorem dequePush_append (cap : Nat) (w : List ℚ) (v : ℚ)
    (h : w.length + 1 ≤ cap) : dequePush cap w v = w ++ [v] := by
  unfold dequePush
  have hlen : (w ++ [v]).length - cap = 0 := by
    rw [List.length_append, List.length_singleton]; omega
  rw [hlen, List.drop_zero]

theorem watchdogTick_fill (cap : Nat) (thresh v : ℚ) (w : List ℚ) (a : Nat)
    (h : w.length + 1 < cap) :
    watchdogTick cap thresh ⟨w, a⟩ v = ⟨w ++ [v], a⟩ := by
  unfold watchdogTick
  rw [dequePush_append cap w v (by omega), if_neg]
  rintro ⟨hlen, -⟩
  rw [List.length_append, List.length_singleton] at hlen
  omega

theorem watchdogTick_fire (cap : Nat) (thresh v : ℚ) (w : List ℚ) (a : Nat)
    (h : w.length + 1 = cap) (hw : ∀ x ∈ w, x < thresh) (hv : v < thresh) :
    watchdogTick cap thresh ⟨w, a⟩ v = ⟨[], a + 1⟩ := by
  unfold watchdogTick
  rw [dequePush_append cap w v (by omega), if_pos]
  constructor
  · rw [List.length_append, List.length_singleton]; omega
  · intro x hx
    rcases List.mem_append.mp hx with h2 | h2
    · exact hw x h2
    · rw [List.mem_singleton.mp h2]
      exact hv

theorem watchdogRun_alert (cap : Nat) (thresh : ℚ) :
    ∀ (vs w : List ℚ) (a : Nat),
      w.length + vs.length = cap → 1 ≤ vs.length →
      (∀ x ∈ w, x < thresh) → (∀ v ∈ vs, v < thresh) →
      watchdogRun cap thresh ⟨w, a⟩ vs = ⟨[], a + 1⟩ := by
  intro vs
  induction vs with
  | nil => intro w a hlen h1 hw hvs; simp at h1
  | cons v rest ih =>
    intro w a hlen h1 hw hvs
    rw [List.length_cons] at hlen
    have hv : v < thresh := hvs v (List.mem_cons_self v rest)
    rw [watchdogRun, List.foldl_cons]
    by_cases hrest : rest = []
    · subst hrest
      rw [watchdogTick_fire cap thresh v w a (by simp at hlen; omega) hw hv]
      rfl
    · have hrl : 0 < rest.length := List.length_pos.mpr hrest
      rw [watchdogTick_fill cap thresh v w a (by omega)]
      have hw2 : ∀ x ∈ w ++ [v], x < thresh := by
        intro x hx
        rcases List.mem_append.mp hx with h2 | h2
        · exact hw x h2
        · rw [List.mem_singleton.mp h2]; exact hv
      exact ih (w ++ [v]) a
        (by rw [List.length_append, List.length_singleton]; omega) hrl hw2
        fun x hx => hvs x (List.mem_cons_of_mem v hx)

/-- C5: with window capacity `cap`, feeding any `cap` consecutive
sub-threshold per-second samples produces exactly one alert, and feeding any
`2 * cap` consecutive sub-threshold samples produces exactly two alerts (not
`cap`): each alert clears the window, and no further alert occurs until it
refills. -/
theorem watchdog_debounce (cap : Nat) (thresh : ℚ) (vs1 vs2 : List ℚ)
    (hcap : 1 ≤ cap) (hlen1 : vs1.length = cap)
    (hsub1 : ∀ v ∈ vs1, v < thresh) (hlen2 : vs2.length = 2 * cap)
    (hsub2 : ∀ v ∈ vs2, v < thresh) :
    (watchdogRun cap thresh ⟨[], 0⟩ vs1).alerts = 1
    ∧ (watchdogRun cap thresh ⟨[], 0⟩ vs2).alerts = 2 := by
  constructor
  · have h1 : watchdogRun cap thresh ⟨[], 0⟩ vs1 = ⟨[], 1⟩ :=
      watchdogRun_alert cap thresh vs1 [] 0 (by simpa using hlen1) (by omega)
        (by simp) hsub1
    rw [h1]
  · have hs1 : ∀ v ∈ vs2.take cap, v < thresh :=
      fun v hv => hsub2 v (List.mem_of_mem_take hv)
    have hs2 : ∀ v ∈ vs2.drop cap, v < thresh :=
      fun v hv => hsub2 v (List.mem_of_mem_drop hv)
    have hl1 : (vs2.take cap).length = cap := by
      rw [List.length_take]; omega
    have hl2 : (vs2.drop cap).length = cap := by
      rw [List.length_drop]; omega
    have e1 : watchdogRun cap thresh ⟨[], 0⟩ (vs2.take cap) = ⟨[], 1⟩ :=
      watchdogRun_alert cap thresh (vs2.take cap) [] 0 (by simpa using hl1)
        (by omega) (by simp) hs1
    have e2 : watchdogRun cap thresh ⟨[], 1⟩ (vs2.drop cap) = ⟨[], 2⟩ :=
      watchdogRun_alert cap thresh (vs2.drop cap) [] 1 (by simpa using hl2)
        (by omega) (by simp) hs2
    rw [← List.take_append_drop cap vs2, watchdogRun, List.foldl_append,
      ← watchdogRun, ← watchdogRun, e1, e2]

/-- Witness for C5 at the script's capacity `SILENCE_TIMEOUT = 3`, with two
non-constant runs of sub-threshold samples (all below
`SILENCE_THRESH = 0.0004`). -/
theorem watchdog_debounce_witness :
    1 ≤ SILENCE_TIMEOUT
    ∧ ((watchdogRun SILENCE_TIMEOUT SILENCE_THRESH ⟨[], 0⟩
          [0, 1 / 10000, 3 / 10000]).alerts = 1
      ∧ (watchdogRun SILENCE_TIMEOUT SILENCE_THRESH ⟨[], 0⟩
          [0, 1 / 10000, 3 / 10000, 2 / 10000, 0, 1 / 10000]).alerts = 2) :=
  ⟨by decide,
    watchdog_debounce SILENCE_TIMEOUT SILENCE_THRESH
      [0, 1 / 10000, 3 / 10000]
      [0, 1 / 10000, 3 / 10000, 2 / 10000, 0, 1 / 10000]
      (by decide) rfl (by norm_num [SILENCE_THRESH]) rfl
      (by norm_num [SILENCE_THRESH])⟩

/-! ### Device locator

dual_live_transcribe.py (lines 105–115) scans *all* PyAudio devices and takes
the first whose name contains `AGG_NAME`, without requiring it to be
capture-capable; it aborts (`sys.exit(1)`) when there is no match or when the
match has fewer than 3 input channels, before any audio is opened.
`find_device` of live_transcribe_3.py filters to capture-capable devices
(`maxInputChannels > 0`) and matches case-insensitively, but checks no
channel minimum.  The substring and the minimum are parameters below. -/

structure DeviceInfo where
  name : String
  maxInputChannels : Nat
deriving DecidableEq

/-- Python's `sub in name` contiguous-substring test. -/
def strContainsAux (sub : List Char) : List Char → Bool
  | [] => sub.isEmpty
  | c :: rest => sub.isPrefixOf (c :: rest) || strContainsAux sub rest

/-- `sub in name` on strings. -/
def nameContains (sub name : String) : Bool :=
  strContainsAux sub.data name.data

inductive LocateError where
  | DeviceNotFound
  | InsufficientChannels
deriving DecidableEq

/-- The scan loop of dual_live_transcribe.py: the first enumerated device —
capture-capable or not — whose name contains `sub`. -/
def findFirstMatch (sub : String) : List DeviceInfo → Option DeviceInfo
  | [] => none
  | d :: ds => if nameContains sub d.name then some d else findFirstMatch sub ds

/-- The aggregate lookup plus the `agg_idx is None or agg_nch < 3` check of
dual_live_transcribe.py, with `AGG_NAME` and the minimum 3 as parameters. -/
def locateAggregate (sub : String) (minCh : Nat) (devices : List DeviceInfo) :
    Except LocateError DeviceInfo :=
  match findFirstMatch sub devices with
  | none => Except.error LocateError.DeviceNotFound
  | some d =>
      if d.maxInputChannels < minCh then
        Except.error LocateError.InsufficientChannels
      else Except.ok d

/-- Startup opens audio only when the locator succeeds; on either failure
`sys.exit(1)` runs before any stream exists. -/
def startupOpens (sub : String) (minCh : Nat) (devices : List DeviceInfo) :
    Option DeviceInfo :=
  match locateAggregate sub minCh devices with
  | Except.error _ => none
  | Except.ok d => some d

/-- Python's `str.lower()`, character by character. -/
def lowerChars (s : String) : List Char := s.data.map Char.toLower

/-- `find_device` of live_transcribe_3.py: the first *capture-capable*
device whose lower-cased name contains the lower-cased substring; `none`
models the `RuntimeError`. -/
def find_device (sub : String) : List DeviceInfo → Option DeviceInfo
  | [] => none
  | d :: ds =>
      if 0 < d.maxInputChannels ∧ strContainsAux (lowerChars sub) (lowerChars d.name)
      then some d else find_device sub ds

/-- Modelled from the spec (§4.1 Device Locator): the first enumerated
*capture-capable* device whose name contains the substring.  Stated only to
compare the claim's wording with what the aggregate lookup actually does. -/
def specFirstCaptureMatch (sub : String) : List DeviceInfo → Option DeviceInfo
  | [] => none
  | d :: ds =>
      if 0 < d.maxInputChannels ∧ nameContains sub d.name then some d
      else specFirstCaptureMatch sub ds

theorem findFirstMatch_none (sub : String) :
    ∀ devices : List DeviceInfo,
      (∀ d ∈ devices, nameContains sub d.name = false) →
      findFirstMatch sub devices = none := by
  intro devices
  induction devices with
  | nil => intro h; rfl
  | cons d ds ih =>
    intro h
    rw [findFirstMatch, if_neg]
    · exact ih fun d2 h2 => h d2 (List.mem_cons_of_mem d h2)
    · rw [h d (List.mem_cons_self d ds)]
      simp

theorem findFirstMatch_first (sub : String) (d : DeviceInfo)
    (post : List DeviceInfo) :
    ∀ pre : List DeviceInfo,
      (∀ d2 ∈ pre, nameContains sub d2.name = false) →
      nameContains sub d.name = true →
      findFirstMatch sub (pre ++ d :: post) = some d := by
  intro pre
  induction pre with
  | nil =>
    intro hpre hd
    rw [List.nil_append, findFirstMatch, if_pos]
    rw [hd]
  | cons p ps ih =>
    intro hpre hd
    rw [List.cons_append, findFirstMatch, if_neg]
    · exact ih (fun d2 h2 => hpre d2 (List.mem_cons_of_mem p h2)) hd
    · rw [hpre p (List.mem_cons_self p ps)]
      simp

/-- C6 (amended): the aggregate lookup returns the first enumerated device —
of any kind, capture-capable or not — whose name contains the substring;
when no device name contains the substring it aborts with the not-found
error, when the first match's input channel count is below the minimum it
aborts with the insufficient-channels error, and in both failure cases no
audio is opened. -/
theorem locate_aggregate_first_match_or_abort (sub : String) (minCh : Nat)
    (devices : List DeviceInfo) :
    ((∀ d ∈ devices, nameContains sub d.name = false) →
        locateAggregate sub minCh devices
            = Except.error LocateError.DeviceNotFound
        ∧ startupOpens sub minCh devices = none)
    ∧ ∀ pre d post, devices = pre ++ d :: post →
        (∀ d2 ∈ pre, nameContains sub d2.name = false) →
        nameContains sub d.name = true →
        (d.maxInputChannels < minCh →
            locateAggregate sub minCh devices
                = Except.error LocateError.InsufficientChannels
            ∧ startupOpens sub minCh devices = none)
        ∧ (minCh ≤ d.maxInputChannels →
            locateAggregate sub minCh devices = Except.ok d
            ∧ startupOpens sub minCh devices = some d) := by
  constructor
  · intro h
    have hm := findFirstMatch_none sub devices h
    rw [startupOpens, locateAggregate, hm]
    exact ⟨rfl, rfl⟩
  · intro pre d post hsplit hpre hd
    have hm : findFirstMatch sub devices = some d := by
      rw [hsplit]; exact findFirstMatch_first sub d post pre hpre hd
    have hloc : locateAggregate sub minCh devices
        = if d.maxInputChannels < minCh then
            Except.error LocateError.InsufficientChannels
          else Except.ok d := by
      rw [locateAggregate, hm]
    constructor
    · intro hch
      rw [startupOpens, hloc, if_pos hch]
      exact ⟨rfl, rfl⟩
    · intro hch
      rw [startupOpens, hloc, if_neg (Nat.not_lt.mpr hch)]
      exact ⟨rfl, rfl⟩

/-- Witness for C6 (amended): with the default substring and minimum 3, a
device list whose second entry is the aggregate is located and opened. -/
theorem locate_aggregate_first_match_witness :
    locateAggregate "System + Mic" 3
        [DeviceInfo.mk "MacBook Pro Microphone" 1, DeviceInfo.mk "System + Mic" 3]
      = Except.ok (DeviceInfo.mk "System + Mic" 3)
    ∧ startupOpens "System + Mic" 3
        [DeviceInfo.mk "MacBook Pro Microphone" 1, DeviceInfo.mk "System + Mic" 3]
      = some (DeviceInfo.mk "System + Mic" 3) :=
  ((locate_aggregate_first_match_or_abort "System + Mic" 3
      [DeviceInfo.mk "MacBook Pro Microphone" 1,
        DeviceInfo.mk "System + Mic" 3]).2
    [DeviceInfo.mk "MacBook Pro Microphone" 1] (DeviceInfo.mk "System + Mic" 3)
    [] rfl (by decide) (by decide)).2 (by decide)

/-- C6 counterexample: when the first name match is an output-only device
(0 input channels) that shadows a later capture-capable aggregate, the claim
predicts success on the first enumerated *capture* device (which both the
spec's reading and the repository's own `find_device` select, and which has
enough channels), but the aggregate lookup aborts with the
insufficient-channels error and opens nothing. -/
theorem locate_aggregate_capture_counterexample :
    specFirstCaptureMatch "System + Mic"
        [DeviceInfo.mk "System + Mic out" 0, DeviceInfo.mk "System + Mic" 3]
      = some (DeviceInfo.mk "System + Mic" 3)
    ∧ find_device "System + Mic"
        [DeviceInfo.mk "System + Mic out" 0, DeviceInfo.mk "System + Mic" 3]
      = some (DeviceInfo.mk "System + Mic" 3)
    ∧ 3 ≤ (DeviceInfo.mk "System + Mic" 3).maxInputChannels
    ∧ locateAggregate "System + Mic" 3
        [DeviceInfo.mk "System + Mic out" 0, DeviceInfo.mk "System + Mic" 3]
      = Except.error LocateError.InsufficientChannels
    ∧ startupOpens "System + Mic" 3
        [DeviceInfo.mk "System + Mic out" 0, DeviceInfo.mk "System + Mic" 3]
      = none :=
  ⟨by decide, by decide, by decide, rfl, rfl⟩

/-! ### Recognition result handlers

Three callbacks exist in the repository:
* `mk_handler` (live_transcribe_2.py): on a result writes the transcript
  file; on an error prints it unless `error.code() == 1110` (no speech).
* `RecognitionWorker._result` (live_transcribe_3.py): `if err or not res:
  return` — every error is silently dropped, nothing is printed.
* the two lambdas of dual_live_transcribe.py: `(…) if r else e and
  print(…)` — every non-nil error, 1110 included, is printed.
None of them cancels the task, retries, or exits. -/

/-- Effect of one result callback: whether an error line was printed,
what transcript text (if any) was written, and whether the session was
terminated. -/
structure HandlerEffect where
  errorLogged : Bool
  wrote : Option String
  terminated : Bool
deriving DecidableEq

/-- The platform's "no speech detected" error code. -/
def noSpeechCode : Int := 1110

/-- `mk_handler` of live_transcribe_2.py. -/
def lt2Handler (result : Option String) (err : Option Int) : HandlerEffect :=
  match result with
  | some txt => { errorLogged := false, wrote := some txt, terminated := false }
  | none =>
    match err with
    | some code =>
        if code ≠ noSpeechCode then
          { errorLogged := true, wrote := none, terminated := false }
        else { errorLogged := false, wrote := none, terminated := false }
    | none => { errorLogged := false, wrote := none, terminated := false }

/-- The logging effect of `RecognitionWorker._result` of
live_transcribe_3.py: `if err or not res: return`. -/
def lt3HandlerEffect (result : Option String) (err : Option Int) :
    HandlerEffect :=
  if err.isSome ∨ result.isNone then
    { errorLogged := false, wrote := none, terminated := false }
  else { errorLogged := false, wrote := result, terminated := false }

/-- The result lambdas of dual_live_transcribe.py:
`(…writes…) if r else e and print("[P…]", e)`. -/
def dualHandler (result : Option String) (err : Option Int) : HandlerEffect :=
  match result with
  | some txt => { errorLogged := false, wrote := some txt, terminated := false }
  | none =>
    match err with
    | some _ => { errorLogged := true, wrote := none, terminated := false }
    | none => { errorLogged := false, wrote := none, terminated := false }

/-- C7 counterexample: the claim says every error code other than "no
speech" is logged and the no-speech code is suppressed in every result
callback; but live_transcribe_3's callback drops the (non-no-speech) error
code 203 without logging, and dual_live_transcribe's handler logs the benign
no-speech code 1110. -/
theorem error_handling_claim_counterexample :
    (lt3HandlerEffect none (some 203)).errorLogged = false
    ∧ (203 : Int) ≠ noSpeechCode
    ∧ (dualHandler none (some noSpeechCode)).errorLogged = true := by
  refine ⟨rfl, by decide, rfl⟩

/-- C7 (amended): no recognition error terminates any session — every
handler returns with the session intact — but the logging policy differs per
script: live_transcribe_2's handler suppresses exactly the no-speech code
1110 and logs any other error; live_transcribe_3's callback logs no error at
all; dual_live_transcribe's handlers log every delivered error, 1110
included. -/
theorem error_handling_per_script (result : Option String) (err : Option Int)
    (code : Int) (hcode : code ≠ noSpeechCode) :
    (lt2Handler result err).terminated = false
    ∧ (lt3HandlerEffect result err).terminated = false
    ∧ (dualHandler result err).terminated = false
    ∧ (lt2Handler none (some code)).errorLogged = true
    ∧ (lt2Handler none (some noSpeechCode)).errorLogged = false
    ∧ (lt3HandlerEffect result err).errorLogged = false
    ∧ (dualHandler none (some code)).errorLogged = true := by
  refine ⟨?_, ?_, ?_, ?_, ?_, ?_, ?_⟩
  · rcases result with - | t <;> rcases err with - | c <;>
      simp [lt2Handler] <;> split <;> rfl
  · rw [lt3HandlerEffect]; split <;> rfl
  · rcases result with - | t <;> rcases err with - | c <;> rfl
  · rw [lt2Handler, if_pos hcode]
  · rw [lt2Handler, if_neg (by simp)]
  · rw [lt3HandlerEffect]; split <;> rfl
  · rfl

/-- Witness for C7 (amended) at a successful result alongside error code
203. -/
theorem error_handling_per_script_witness :
    (lt2Handler (some "hello") none).terminated = false
    ∧ (lt3HandlerEffect (some "hello") none).terminated = false
    ∧ (dualHandler (some "hello") none).terminated = false
    ∧ (lt2Handler none (some 203)).errorLogged = true
    ∧ (lt2Handler none (some noSpeechCode)).errorLogged = false
    ∧ (lt3HandlerEffect (some "hello") none).errorLogged = false
    ∧ (dualHandler none (some 203)).errorLogged = true :=
  error_handling_per_script (some "hello") none 203 (by decide)

/-! ### VU meter and silence alerts (dual_live_transcribe.py)

The per-second VU block computes `rms_mic` and `rms_bh`, but appends only
`rms_bh` to `last_rms_bh`; the only warning it can print is the BlackHole
(remote) one.  There is no window, and no alert, for the microphone. -/

inductive SpeakerSource where
  | mic
  | remote
deriving DecidableEq

/-- One invocation of the VU/watchdog block at the end of `tap`.  `tick`
is true when a whole second has elapsed since `meter_timer`; `rmsMic` and
`rmsBh` are the RMS of the two downmixed buffers.  The returned list holds
the sources of the alerts printed during this invocation. -/
def vuStep (cap : Nat) (thresh : ℚ) (s : WatchdogState) (tick : Bool)
    (rmsMic rmsBh : ℚ) : WatchdogState × List SpeakerSource :=
  if tick then
    if (dequePush cap s.window rmsBh).length = cap
        ∧ ∀ x ∈ dequePush cap s.window rmsBh, x < thresh then
      (⟨[], s.alerts + 1⟩, [SpeakerSource.remote])
    else (⟨dequePush cap s.window rmsBh, s.alerts⟩, [])
  else (s, [])

/-- All alerts printed over a whole post-calibration execution. -/
def vuRunAlerts (cap : Nat) (thresh : ℚ) (s : WatchdogState) :
    List (Bool × ℚ × ℚ) → List SpeakerSource
  | [] => []
  | (tick, rmsMic, rmsBh) :: rest =>
      (vuStep cap thresh s tick rmsMic rmsBh).2
        ++ vuRunAlerts cap thresh (vuStep cap thresh s tick rmsMic rmsBh).1 rest

theorem vuStep_alerts_remote (cap : Nat) (thresh : ℚ) (s : WatchdogState)
    (tick : Bool) (rmsMic rmsBh : ℚ) :
    ∀ src ∈ (vuStep cap thresh s tick rmsMic rmsBh).2,
      src = SpeakerSource.remote := by
  intro src h
  rw [vuStep] at h
  split at h
  · split at h
    · simpa using h
    · simp at h
  · simp at h

/-- C10: in every execution of the post-calibration tap, every silence alert
names the remote (BlackHole) source; no alert is ever produced for the local
microphone. -/
theorem silence_alerts_only_remote (cap : Nat) (thresh : ℚ)
    (s : WatchdogState) (inputs : List (Bool × ℚ × ℚ)) :
    ∀ src ∈ vuRunAlerts cap thresh s inputs, src = SpeakerSource.remote := by
  induction inputs generalizing s with
  | nil => intro src h; simp [vuRunAlerts] at h
  | cons p rest ih =>
    obtain ⟨tick, rmsMic, rmsBh⟩ := p
    intro src h
    rw [vuRunAlerts] at h
    rcases List.mem_append.mp h with h2 | h2
    · exact vuStep_alerts_remote cap thresh s tick rmsMic rmsBh src h2
    · exact ih _ src h2

/-- Witness for C10: a run whose single silent tick fires an alert — the
alert is for the remote source. -/
theorem silence_alerts_only_remote_witness :
    SpeakerSource.remote ∈ vuRunAlerts 1 1 ⟨[], 0⟩ [(true, 0, 0)]
    ∧ SpeakerSource.remote = SpeakerSource.remote :=
  ⟨by decide,
    silence_alerts_only_remote 1 1 ⟨[], 0⟩ [(true, 0, 0)] SpeakerSource.remote
      (by decide)⟩
